import Mathlib

set_option maxRecDepth 8000

/-!
# Verification of `reconcileYesterdayAutomation.py`

A shallow embedding of the reconciliation script's logic:

* amount parsing and five-way aggregation (`calculateTotals`, source lines 94-128),
* business-date resolution (`getDateStrings`, source lines 12-39) together with
  CPython's `datetime` ordinal-to-calendar conversion and `strftime('%Y/%m/%d')`,
* CSV rendering (`dumpToCSV`, source lines 131-158),
* the run-level control flow of `main` / `getData` / `sendEmail` /
  `logErrorAndExit`, including which failures are caught and logged and which
  propagate as uncaught exceptions.

Monetary amounts are modelled as exact rationals (the script uses Python
floats; the decimal values the ledger emits, `FORMAT(gross,'N2')`, are the
intended semantics and all claim-relevant computations are exact).
-/

/- ## Amount parsing

Embeds `float(row[0].replace(',', ''))` from `calculateTotals` (lines 115-116).
`str.replace(',', '')` deletes every comma wherever it occurs, which is the
`List.filter` below.  `float` is modelled on plain decimal literals (optional
sign, digits, optional single fraction point) — the shape of every amount the
ledger's `N2` formatting can produce; exponents / inf / nan are outside the
modelled domain. -/

def removeCommas (s : String) : String :=
  ⟨s.data.filter (fun c => c ≠ ',')⟩

def digitsVal (cs : List Char) : ℕ :=
  cs.foldl (fun a c => 10 * a + (c.toNat - 48)) 0

def ratSign (neg : Bool) : ℚ :=
  if neg then -1 else 1

def pyFloat? (s : String) : Option ℚ :=
  let p : Bool × List Char :=
    match s.data with
    | '-' :: r => (true, r)
    | '+' :: r => (false, r)
    | r => (false, r)
  let ip := p.2.takeWhile Char.isDigit
  let rest := p.2.dropWhile Char.isDigit
  match rest with
  | [] =>
    if ip.isEmpty then none
    else some (ratSign p.1 * (digitsVal ip : ℚ))
  | c :: frac =>
    if c = '.' ∧ frac.all Char.isDigit ∧ ¬(ip.isEmpty ∧ frac.isEmpty) then
      some (ratSign p.1 * ((digitsVal ip : ℚ) + (digitsVal frac : ℚ) / (10 : ℚ) ^ frac.length))
    else none

def parseAmount (s : String) : Option ℚ :=
  pyFloat? (removeCommas s)

/- ## Classification and totals

Embeds the `match type:` statement of `calculateTotals` (lines 117-125).
`normType` is `row[1].lower().strip()`. -/

inductive Cat where
  | card
  | sage
  | cash
  | cheque
  | bank
deriving DecidableEq

/-- ASCII lower-casing of one character, as Python's `str.lower` acts on the
ASCII labels this data contains. -/
def pyLowerChar (c : Char) : Char :=
  if 65 ≤ c.toNat ∧ c.toNat ≤ 90 then Char.ofNat (c.toNat + 32) else c

def isPySpace (c : Char) : Bool :=
  c = ' ' ∨ c = '\t' ∨ c = '\n' ∨ c = '\r' ∨ c = Char.ofNat 11 ∨ c = Char.ofNat 12

/-- `str.strip()`: drop leading and trailing whitespace. -/
def pyStrip (cs : List Char) : List Char :=
  ((cs.dropWhile isPySpace).reverse.dropWhile isPySpace).reverse

/-- `row[1].lower().strip()` (line 117), on the character list of the string. -/
def normType (s : String) : List Char :=
  pyStrip (s.data.map pyLowerChar)

/-- The `match type:` arms of `calculateTotals` (lines 119-125): the closed
category set; anything else falls to the wildcard arm (`none`). -/
def classify (t : List Char) : Option Cat :=
  if t = "credit card".data ∨ t = "debit card".data then some Cat.card
  else if t = "sage pay".data then some Cat.sage
  else if t = "cash".data then some Cat.cash
  else if t = "cheque".data then some Cat.cheque
  else if t = "bank transfer".data then some Cat.bank
  else none

structure Totals where
  card : ℚ
  sage : ℚ
  cash : ℚ
  cheque : ℚ
  bank : ℚ
deriving DecidableEq, Repr

def zeroTotals : Totals :=
  ⟨0, 0, 0, 0, 0⟩

def applyCat (acc : Totals) (c : Option Cat) (amount : ℚ) : Totals :=
  match c with
  | some Cat.card => { acc with card := acc.card - amount }
  | some Cat.sage => { acc with sage := acc.sage - amount }
  | some Cat.cash => { acc with cash := acc.cash - amount }
  | some Cat.cheque => { acc with cheque := acc.cheque - amount }
  | some Cat.bank => { acc with bank := acc.bank - amount }
  | none => acc

/-- One loop iteration of `calculateTotals` (lines 115-125): parse the amount
(a `ValueError` there aborts the whole aggregation, modelled as `none`),
normalize the type, and subtract from the matching total. -/
def step (acc : Totals) (r : String × String) : Option Totals :=
  match parseAmount r.1 with
  | none => none
  | some amount => some (applyCat acc (classify (normType r.2)) amount)

def runRows : Totals → List (String × String) → Option Totals
  | acc, [] => some acc
  | acc, r :: rs =>
    match step acc r with
    | none => none
    | some acc2 => runRows acc2 rs

/-- `round(x, 2)` (line 128): round to the nearest multiple of 1/100.
Mathlib's `round` resolves exact half-cent ties upward while Python resolves
them to even; every theorem below either fixes amounts to multiples of 0.01
(where rounding is the identity) or uses only monotonicity, so no statement
depends on the tie-breaking direction. -/
def round2 (q : ℚ) : ℚ :=
  ((round (q * 100) : ℤ) : ℚ) / 100

def roundTotals (t : Totals) : Totals :=
  ⟨round2 t.card, round2 t.sage, round2 t.cash, round2 t.cheque, round2 t.bank⟩

/-- `calculateTotals` (lines 94-128): fold the rows from all-zero totals and
round each total to 2 decimal places.  `none` models the `ValueError` raised
by `float()` on an unparseable amount, which aborts the whole loop. -/
def calculateTotals (rows : List (String × String)) : Option Totals :=
  (runRows zeroTotals rows).map roundTotals

def sumTotals (t : Totals) : ℚ :=
  t.card + t.sage + t.cash + t.cheque + t.bank

/-- Spec-side measure (refinement reference, from the spec's words): the sum of
all parsed amounts whose normalized type matched one of the known categories;
unmatched records contribute zero. -/
def specMatchedSum : List (String × String) → ℚ
  | [] => 0
  | r :: rs =>
    (if (classify (normType r.2)).isSome then (parseAmount r.1).getD 0 else 0) + specMatchedSum rs

/-- `q` is an exact multiple of 1/100 (an amount with at most two fraction
digits, as the ledger's `N2` formatting produces). -/
def isCent (q : ℚ) : Prop :=
  ∃ k : ℤ, q = (k : ℚ) / 100

/- ## Business-date resolution

Embeds `getDateStrings` (lines 12-39).  A calendar date is represented by its
proleptic-Gregorian ordinal (`datetime.date.toordinal()`: day 1 is 0001-01-01;
1970-01-01 is 719163).  `datetime.today() - timedelta(days=k)` is ordinal
subtraction, and `weekday()` (Monday = 0) is `(ordinal + 6) % 7`.
`ord2ymd` is CPython's `datetime._ord2ymd`, the conversion `strftime` renders. -/

def daysBeforeMonth (m : ℕ) : ℕ :=
  match m with
  | 1 => 0
  | 2 => 31
  | 3 => 59
  | 4 => 90
  | 5 => 120
  | 6 => 151
  | 7 => 181
  | 8 => 212
  | 9 => 243
  | 10 => 273
  | 11 => 304
  | 12 => 334
  | _ => 0

def daysInMonthTbl (m : ℕ) : ℕ :=
  match m with
  | 1 => 31
  | 2 => 28
  | 3 => 31
  | 4 => 30
  | 5 => 31
  | 6 => 30
  | 7 => 31
  | 8 => 31
  | 9 => 30
  | 10 => 31
  | 11 => 30
  | 12 => 31
  | _ => 0

/-- Month and day from a day-of-year index `n < 365` (CPython `_ord2ymd`,
month-guess-then-adjust step). -/
def monthDayOf (n : ℕ) (leap : Bool) : ℕ × ℕ :=
  let month := (n + 50) / 32
  let preceding := daysBeforeMonth month + (if 2 < month ∧ leap = true then 1 else 0)
  if n < preceding then
    let m := month - 1
    let preceding2 := preceding - (daysInMonthTbl m + (if m = 2 ∧ leap = true then 1 else 0))
    (m, n - preceding2 + 1)
  else
    (month, n - preceding + 1)

/-- CPython `datetime._ord2ymd`: proleptic-Gregorian ordinal to
(year, month, day). -/
def ord2ymd (nOrd : ℕ) : ℕ × ℕ × ℕ :=
  let n0 := nOrd - 1
  let n400 := n0 / 146097
  let r400 := n0 % 146097
  let n100 := r400 / 36524
  let r100 := r400 % 36524
  let n4 := r100 / 1461
  let r4 := r100 % 1461
  let n1 := r4 / 365
  let n := r4 % 365
  let year := n400 * 400 + 1 + n100 * 100 + n4 * 4 + n1
  if n1 = 4 ∨ n100 = 4 then
    (year - 1, 12, 31)
  else
    let leap : Bool := (n1 == 3) && (n4 != 24 || n100 == 3)
    let md := monthDayOf n leap
    (year, md.1, md.2)

def digitChar (k : ℕ) : Char :=
  Char.ofNat (48 + k % 10)

/-- `strftime('%Y/%m/%d')`: zero-padded rendering.  Faithful to CPython for
years 1000-9999 (the whole range a scheduled daily run can see); month and day
are always in 1..31 (see `ord2ymd_month_day_bounds`), so two digits each. -/
def formatDate (p : ℕ × ℕ × ℕ) : String :=
  ⟨[digitChar (p.1 / 1000), digitChar (p.1 / 100), digitChar (p.1 / 10), digitChar p.1, '/',
    digitChar (p.2.1 / 10), digitChar p.2.1, '/',
    digitChar (p.2.2 / 10), digitChar p.2.2]⟩

/-- `datetime.weekday()`: Monday = 0 ... Sunday = 6. -/
def weekday (t : ℕ) : ℕ :=
  (t + 6) % 7

/-- `getDateStrings` (lines 12-39), as a function of today's ordinal:
Monday goes back 3 days, every other weekday 1 day; both dates are rendered
as `YYYY/MM/DD`. -/
def getDateStrings (t : ℕ) : String × String :=
  let lastWorkingDay := if weekday t = 0 then t - 3 else t - 1
  (formatDate (ord2ymd lastWorkingDay), formatDate (ord2ymd t))

/-- Decides whether a string has the shape `YYYY/MM/DD` (four digits, slash,
two digits, slash, two digits). -/
def isYYYYMMDD (s : String) : Bool :=
  match s.data with
  | [y1, y2, y3, y4, a, m1, m2, b, d1, d2] =>
    y1.isDigit && y2.isDigit && y3.isDigit && y4.isDigit && (a == '/') &&
      m1.isDigit && m2.isDigit && (b == '/') && d1.isDigit && d2.isDigit
  | _ => false

/- ## CSV rendering

Embeds `dumpToCSV` (lines 131-158).  `csv.writer.writerow` appends one row to
the in-memory buffer; a cell is either a string (the headings tuple) or a
number (the totals tuple), which the writer stringifies on emission. -/

inductive Cell where
  | str : String → Cell
  | num : ℚ → Cell
deriving DecidableEq

def csvHeadings : List String :=
  ["Card", "Sagepay", "Cash", "Cheque", "Bank Transfer"]

def writerow (buf : List (List Cell)) (row : List Cell) : List (List Cell) :=
  buf ++ [row]

/-- `dumpToCSV` (lines 131-158): write the heading row, then the totals row,
in category order. -/
def dumpToCSV (t : Totals) : List (List Cell) :=
  writerow (writerow [] (csvHeadings.map Cell.str))
    [Cell.num t.card, Cell.num t.sage, Cell.num t.cash, Cell.num t.cheque, Cell.num t.bank]

/- ## Run-level control flow

Embeds `main` (lines 221-269) together with the error handling of `getData`
(lines 42-91), `sendEmail` (lines 161-205) and `logErrorAndExit` (lines
208-218).  External effects are abstracted into an environment: what each
`os.getenv` returns, what the database layer produces (`pyodbc` rows or a
raised connection/query error), and whether the SMTP send inside the `try`
block succeeds. -/

/-- Python truthiness of an optional environment string, as tested by
`all([server, database, uid, pwd])`: absent (`None`) and empty strings are
falsy. -/
def truthy : Option String → Bool
  | none => false
  | some s => s ≠ ""

/-- `int(s)` on a string (sign and digits); `int(None)` is the separate
`TypeError` path modelled in `runMain`. -/
def pyInt? (s : String) : Option ℤ :=
  let p : Bool × List Char :=
    match s.data with
    | '-' :: r => (true, r)
    | '+' :: r => (false, r)
    | r => (false, r)
  if p.2 ≠ [] ∧ p.2.all Char.isDigit then
    some ((if p.1 then -1 else 1) * (digitsVal p.2 : ℤ))
  else none

structure Env where
  sqlServer : Option String
  sqlDatabase : Option String
  sqlUid : Option String
  sqlPwd : Option String
  smtpServer : Option String
  smtpPort : Option String
  smtpUsername : Option String
  smtpPassword : Option String
  smtpRecipient : Option String
  /-- Rows fetched by the two queries, or the text of the exception raised
  inside `getData`'s `try` block (connection or query failure). -/
  dbResult : Except String (List (String × String))
  /-- Outcome of the SMTP connect/starttls/login/send inside `sendEmail`'s
  `try` block, or the text of the exception raised there. -/
  smtpResult : Except String Unit

/-- How a run terminates.
`loggedError e` is `logErrorAndExit(e)`: append `e` to `logs.txt`, then
`sys.exit(1)`.  `uncaughtError e` is an exception no handler catches: Python
prints a traceback to stderr and exits with code 1, and nothing is written to
the run log. -/
inductive RunResult where
  | success : RunResult
  | loggedError : String → RunResult
  | uncaughtError : String → RunResult
deriving DecidableEq

/-- Observable side effects of a run: whether the database query was attempted,
with which host value an SMTP connection was attempted (`some h` records the
`smtplib.SMTP(h, port)` call, `h` itself being the possibly-missing
`SMTP_SERVER` value), and the lines appended to `logs.txt`. -/
structure Trace where
  queryAttempted : Bool
  smtpHostUsed : Option (Option String)
  log : List String
deriving DecidableEq

def sqlConfigMsg : String :=
  "Missing one or more SQL connection environment variables"

/-- Text of the `ValueError` raised by `float()` on an unparseable amount
(line 116); it propagates out of `calculateTotals` and `main` uncaught. -/
def parseFailMsg : String :=
  "could not convert string to float"

/-- Text of the `TypeError` raised by `int(os.getenv('SMTP_PORT'))` (line 174)
when the variable is absent; raised outside `sendEmail`'s `try` block. -/
def intNoneMsg : String :=
  "int() argument must be a string, a bytes-like object or a real number, not NoneType"

/-- Text of the `ValueError` raised by `int()` on a non-numeric port string;
also outside the `try` block. -/
def intValueMsg : String :=
  "invalid literal for int() with base 10"

def successMsg : String :=
  "Successful run"

/-- `sqlCredsOk` is the guard `all([server, database, uid, pwd])` in `getData`
(line 63): the four database values are validated together, before the
connection string is built. -/
def sqlCredsOk (env : Env) : Bool :=
  truthy env.sqlServer && truthy env.sqlDatabase && truthy env.sqlUid && truthy env.sqlPwd

/-- The whole run (`main`, lines 221-269): resolve dates (pure), fetch rows
(`getData`), aggregate (`calculateTotals`), render (`dumpToCSV`), send
(`sendEmail`).  Note which failures are routed to `logErrorAndExit` and which
are uncaught: `main` itself has no handler, so a `ValueError` escaping
`calculateTotals` and the `int(None)` `TypeError` in `sendEmail` (raised
before its `try` block) terminate the process without any log write.  The
SMTP configuration values are read and used without any presence check. -/
def runMain (env : Env) : RunResult × Trace :=
  if sqlCredsOk env then
    match env.dbResult with
    | Except.error e => (RunResult.loggedError e, ⟨true, none, [e]⟩)
    | Except.ok rows =>
      match calculateTotals rows with
      | none => (RunResult.uncaughtError parseFailMsg, ⟨true, none, []⟩)
      | some totals =>
        let _csv := dumpToCSV totals
        match env.smtpPort with
        | none => (RunResult.uncaughtError intNoneMsg, ⟨true, none, []⟩)
        | some p =>
          match pyInt? p with
          | none => (RunResult.uncaughtError intValueMsg, ⟨true, none, []⟩)
          | some _port =>
            match env.smtpResult with
            | Except.error e => (RunResult.loggedError e, ⟨true, some env.smtpServer, [e]⟩)
            | Except.ok _ => (RunResult.success, ⟨true, some env.smtpServer, [successMsg]⟩)
  else
    (RunResult.loggedError sqlConfigMsg, ⟨false, none, [sqlConfigMsg]⟩)

/-- All five totals satisfy `P`. -/
def compPred (P : ℚ → Prop) (t : Totals) : Prop :=
  P t.card ∧ P t.sage ∧ P t.cash ∧ P t.cheque ∧ P t.bank

/- ## Supporting lemmas about the aggregator -/

theorem sum_applyCat (acc : Totals) (c : Option Cat) (q : ℚ) :
    sumTotals (applyCat acc c q) = sumTotals acc - (if c.isSome then q else 0) := by
  cases c with
  | none => simp [applyCat, sumTotals]
  | some cat => cases cat <;> simp [applyCat, sumTotals] <;> ring

theorem runRows_sum : ∀ (rows : List (String × String)) (acc t : Totals),
    runRows acc rows = some t → sumTotals t = sumTotals acc - specMatchedSum rows := by
  intro rows
  induction rows with
  | nil =>
    intro acc t h
    simp only [runRows, Option.some.injEq] at h
    subst h
    simp [specMatchedSum]
  | cons r rs ih =>
    intro acc t h
    simp only [runRows] at h
    cases hs : step acc r with
    | none => rw [hs] at h; exact absurd h (by simp)
    | some acc2 =>
      rw [hs] at h
      have hsum := ih acc2 t h
      simp only [step] at hs
      cases hp : parseAmount r.1 with
      | none => rw [hp] at hs; exact absurd hs (by simp)
      | some q =>
        rw [hp] at hs
        simp only [Option.some.injEq] at hs
        subst hs
        rw [hsum, sum_applyCat]
        simp only [specMatchedSum, hp, Option.getD_some]
        ring

theorem runRows_isSome : ∀ (rows : List (String × String)) (acc : Totals),
    (∀ r ∈ rows, (parseAmount r.1).isSome = true) → ∃ t, runRows acc rows = some t := by
  intro rows
  induction rows with
  | nil => intro acc _; exact ⟨acc, rfl⟩
  | cons r rs ih =>
    intro acc h
    obtain ⟨q, hq⟩ := Option.isSome_iff_exists.mp (h r (by simp))
    have hstep : step acc r = some (applyCat acc (classify (normType r.2)) q) := by
      simp [step, hq]
    simp only [runRows, hstep]
    exact ih _ (fun x hx => h x (by simp [hx]))

theorem runRows_none : ∀ (rows : List (String × String)) (acc : Totals),
    (∃ r ∈ rows, parseAmount r.1 = none) → runRows acc rows = none := by
  intro rows
  induction rows with
  | nil => intro acc h; simp at h
  | cons r rs ih =>
    intro acc h
    rcases h with ⟨x, hx, hnone⟩
    rcases List.mem_cons.mp hx with hx | hx
    · subst hx
      simp [runRows, step, hnone]
    · simp only [runRows]
      cases hs : step acc r with
      | none => rfl
      | some acc2 => exact ih acc2 ⟨x, hx, hnone⟩

theorem applyCat_pres {P Q : ℚ → Prop} (hsub : ∀ x a, P x → Q a → P (x - a))
    (acc : Totals) (c : Option Cat) (q : ℚ) (hacc : compPred P acc) (hq : Q q) :
    compPred P (applyCat acc c q) := by
  obtain ⟨h1, h2, h3, h4, h5⟩ := hacc
  cases c with
  | none => exact ⟨h1, h2, h3, h4, h5⟩
  | some cat =>
    cases cat with
    | card => exact ⟨hsub _ _ h1 hq, h2, h3, h4, h5⟩
    | sage => exact ⟨h1, hsub _ _ h2 hq, h3, h4, h5⟩
    | cash => exact ⟨h1, h2, hsub _ _ h3 hq, h4, h5⟩
    | cheque => exact ⟨h1, h2, h3, hsub _ _ h4 hq, h5⟩
    | bank => exact ⟨h1, h2, h3, h4, hsub _ _ h5 hq⟩

theorem runRows_pres {P Q : ℚ → Prop} (hsub : ∀ x a, P x → Q a → P (x - a)) :
    ∀ (rows : List (String × String)) (acc t : Totals),
      (∀ r ∈ rows, ∀ q, parseAmount r.1 = some q → Q q) →
      compPred P acc → runRows acc rows = some t → compPred P t := by
  intro rows
  induction rows with
  | nil =>
    intro acc t _ hacc h
    simp only [runRows, Option.some.injEq] at h
    subst h
    exact hacc
  | cons r rs ih =>
    intro acc t hrows hacc h
    simp only [runRows] at h
    cases hs : step acc r with
    | none => rw [hs] at h; exact absurd h (by simp)
    | some acc2 =>
      rw [hs] at h
      simp only [step] at hs
      cases hp : parseAmount r.1 with
      | none => rw [hp] at hs; exact absurd hs (by simp)
      | some q =>
        rw [hp] at hs
        simp only [Option.some.injEq] at hs
        subst hs
        refine ih _ t (fun x hx => hrows x (by simp [hx])) ?_ h
        exact applyCat_pres hsub acc _ q hacc (hrows r (by simp) q hp)

theorem round2_isCent {q : ℚ} (h : isCent q) : round2 q = q := by
  obtain ⟨k, rfl⟩ := h
  unfold round2
  have h100 : ((k : ℚ) / 100) * 100 = (k : ℚ) := by field_simp
  rw [h100, round_intCast]

theorem round2_nonpos {q : ℚ} (h : q ≤ 0) : round2 q ≤ 0 := by
  unfold round2
  have hq : q * 100 ≤ 0 := mul_nonpos_of_nonpos_of_nonneg h (by norm_num)
  have h1 : round (q * 100) ≤ 0 := by
    calc round (q * 100) ≤ round (0 : ℚ) := by
          rw [round_eq, round_eq]
          exact Int.floor_le_floor (by linarith)
      _ = 0 := round_zero
  have h2 : ((round (q * 100) : ℤ) : ℚ) ≤ 0 := by exact_mod_cast h1
  exact div_nonpos_iff.mpr (Or.inr ⟨h2, by norm_num⟩)

theorem isCent_zero : isCent 0 :=
  ⟨0, by norm_num⟩

theorem isCent_sub {x a : ℚ} (hx : isCent x) (ha : isCent a) : isCent (x - a) := by
  obtain ⟨k, rfl⟩ := hx
  obtain ⟨m, rfl⟩ := ha
  exact ⟨k - m, by push_cast; ring⟩

theorem step_skip {acc : Totals} {a ty : String} {q : ℚ}
    (hp : parseAmount a = some q) (hc : classify (normType ty) = none) :
    step acc (a, ty) = some acc := by
  simp [step, hp, hc, applyCat]

theorem runRows_skip : ∀ (xs : List (String × String)) (acc : Totals) (a ty : String)
    (ys : List (String × String)), (parseAmount a).isSome = true →
    classify (normType ty) = none →
    runRows acc (xs ++ (a, ty) :: ys) = runRows acc (xs ++ ys) := by
  intro xs
  induction xs with
  | nil =>
    intro acc a ty ys hp hc
    obtain ⟨q, hq⟩ := Option.isSome_iff_exists.mp hp
    simp only [List.nil_append, runRows, step_skip hq hc]
  | cons x xs ih =>
    intro acc a ty ys hp hc
    simp only [List.cons_append, runRows]
    cases hs : step acc x with
    | none => rfl
    | some acc2 => exact ih acc2 a ty ys hp hc

theorem calculateTotals_skip {a ty : String} (xs ys : List (String × String))
    (hp : (parseAmount a).isSome = true) (hc : classify (normType ty) = none) :
    calculateTotals (xs ++ (a, ty) :: ys) = calculateTotals (xs ++ ys) := by
  unfold calculateTotals
  rw [runRows_skip xs zeroTotals a ty ys hp hc]

/- ## Supporting lemmas about date rendering -/

theorem digitChar_isDigit (k : ℕ) : (digitChar k).isDigit = true := by
  have hall : ∀ r, r < 10 → (Char.ofNat (48 + r)).isDigit = true := by decide
  exact hall (k % 10) (Nat.mod_lt _ (by norm_num))

theorem formatDate_isYYYYMMDD (p : ℕ × ℕ × ℕ) : isYYYYMMDD (formatDate p) = true := by
  simp [isYYYYMMDD, formatDate, digitChar_isDigit]

theorem monthDayOf_bounds : ∀ n, n < 365 →
    (1 ≤ (monthDayOf n true).1 ∧ (monthDayOf n true).1 ≤ 12 ∧
      1 ≤ (monthDayOf n true).2 ∧ (monthDayOf n true).2 ≤ 31) ∧
    (1 ≤ (monthDayOf n false).1 ∧ (monthDayOf n false).1 ≤ 12 ∧
      1 ≤ (monthDayOf n false).2 ∧ (monthDayOf n false).2 ≤ 31) := by
  decide

/-- The calendar conversion only emits months 1-12 and days 1-31, so the
two-digit renderings in `formatDate` are faithful. -/
theorem ord2ymd_month_day_bounds (nOrd : ℕ) :
    1 ≤ (ord2ymd nOrd).2.1 ∧ (ord2ymd nOrd).2.1 ≤ 12 ∧
      1 ≤ (ord2ymd nOrd).2.2 ∧ (ord2ymd nOrd).2.2 ≤ 31 := by
  simp only [ord2ymd]
  split_ifs with h
  · exact ⟨by norm_num, by norm_num, by norm_num, by norm_num⟩
  · have hlt : (nOrd - 1) % 146097 % 36524 % 1461 % 365 < 365 := Nat.mod_lt _ (by norm_num)
    have hb := monthDayOf_bounds _ hlt
    cases hleap : (((nOrd - 1) % 146097 % 36524 % 1461 / 365 == 3) &&
        ((nOrd - 1) % 146097 % 36524 / 1461 != 24 || (nOrd - 1) % 146097 / 36524 == 3)) with
    | true => simpa [hleap] using hb.1
    | false => simpa [hleap] using hb.2

/- ## Concrete environments used in run-level theorems -/

/-- Full configuration and a successful database fetch whose single row has an
unparseable amount. -/
def envBadAmount : Env :=
  ⟨some "h", some "d", some "u", some "p", some "smtp", some "587", some "user", some "pw",
    some "to", Except.ok [("abc", "cash")], Except.ok ()⟩

/-- Database password absent; everything else present. -/
def envMissingPwd : Env :=
  ⟨some "h", some "d", some "u", none, some "smtp", some "587", some "user", some "pw",
    some "to", Except.ok [], Except.ok ()⟩

/-- Database host absent; everything else present. -/
def envNoDb : Env :=
  ⟨none, some "d", some "u", some "p", some "smtp", some "587", some "user", some "pw",
    some "to", Except.ok [], Except.ok ()⟩

/-- `SMTP_PORT` absent; everything else present and the fetch succeeds. -/
def envPortMissing : Env :=
  ⟨some "h", some "d", some "u", some "p", some "smtp", none, some "user", some "pw",
    some "to", Except.ok [], Except.ok ()⟩

/-- `SMTP_SERVER` absent; the send attempt then fails inside the `try` block. -/
def envHostMissing : Env :=
  ⟨some "h", some "d", some "u", some "p", none, some "587", some "user", some "pw",
    some "to", Except.ok [], Except.error "please run connect() first"⟩

/- ## Claims -/

/-- C1 (counterexample): the claimed sum identity fails on a parseable amount
with sub-cent precision.  For the single row `("0.004", "cash")` the cash
total rounds to `0`, so the sum of the five returned totals is `0`, while the
negated sum of matched parsed amounts is `-1/250 = -0.004`. -/
theorem claim_C1_counterexample :
    calculateTotals [("0.004", "cash")] = some ⟨0, 0, 0, 0, 0⟩ ∧
    specMatchedSum [("0.004", "cash")] = 1 / 250 ∧
    sumTotals ⟨0, 0, 0, 0, 0⟩ ≠ -(1 / 250) := by
  refine ⟨by with_unfolding_all rfl, by with_unfolding_all rfl, by norm_num [sumTotals]⟩

/-- C1 (amended): when every row's amount parses to an exact multiple of 0.01
(as the ledger's `N2` formatting guarantees), the per-total rounding is the
identity and the sum of the five totals returned by `calculateTotals` equals
the negation of the sum of all parsed amounts whose normalized type matched a
known category; records with unmatched types contribute zero to every total. -/
theorem claim_C1_sum_neg_matched (rows : List (String × String))
    (H : ∀ r ∈ rows, ∃ q : ℚ, parseAmount r.1 = some q ∧ isCent q) :
    ((calculateTotals rows).isSome = true ∧
      ∀ t, calculateTotals rows = some t → sumTotals t = -(specMatchedSum rows)) ∧
    (∀ (xs ys : List (String × String)) (a ty : String), (parseAmount a).isSome = true →
      classify (normType ty) = none →
      calculateTotals (xs ++ (a, ty) :: ys) = calculateTotals (xs ++ ys)) := by
  have hsome : ∀ r ∈ rows, (parseAmount r.1).isSome = true := fun r hr => by
    obtain ⟨q, hq, _⟩ := H r hr
    simp [hq]
  obtain ⟨t0, ht0⟩ := runRows_isSome rows zeroTotals hsome
  have hcent : compPred isCent t0 := by
    refine runRows_pres (Q := isCent) (fun x a hx ha => isCent_sub hx ha) rows zeroTotals t0
      ?_ ⟨isCent_zero, isCent_zero, isCent_zero, isCent_zero, isCent_zero⟩ ht0
    intro r hr q hq
    obtain ⟨q2, hq2, hq2c⟩ := H r hr
    rw [hq] at hq2
    injection hq2 with e
    rw [e]
    exact hq2c
  have hround : roundTotals t0 = t0 := by
    obtain ⟨h1, h2, h3, h4, h5⟩ := hcent
    cases t0
    simp only [roundTotals, Totals.mk.injEq]
    exact ⟨round2_isCent h1, round2_isCent h2, round2_isCent h3, round2_isCent h4,
      round2_isCent h5⟩
  have hcalc : calculateTotals rows = some t0 := by
    simp [calculateTotals, ht0, hround]
  refine ⟨⟨by simp [hcalc], fun t ht => ?_⟩,
    fun xs ys a ty hp hc => calculateTotals_skip xs ys hp hc⟩
  rw [hcalc] at ht
  injection ht with e
  have hsum := runRows_sum rows zeroTotals t0 ht0
  rw [← e]
  simpa [sumTotals, zeroTotals] using hsum

/-- C1 (witness): the amended theorem applied to the single matched row
`("1,234.50", "Cash")`. -/
theorem claim_C1_witness :
    (calculateTotals [("1,234.50", "Cash")]).isSome = true ∧
    sumTotals ⟨0, 0, -1234.50, 0, 0⟩ = -(specMatchedSum [("1,234.50", "Cash")]) := by
  have H : ∀ r ∈ [("1,234.50", "Cash")], ∃ q : ℚ, parseAmount r.1 = some q ∧ isCent q := by
    intro r hr
    simp only [List.mem_singleton] at hr
    subst hr
    exact ⟨1234.50, by with_unfolding_all rfl, ⟨123450, by norm_num⟩⟩
  have h := claim_C1_sum_neg_matched [("1,234.50", "Cash")] H
  exact ⟨h.1.1, h.1.2 ⟨0, 0, -1234.50, 0, 0⟩ (by with_unfolding_all rfl)⟩

/-- C2 (counterexample): with full configuration and a fetched row whose
amount is unparseable, the run terminates as an uncaught error and nothing at
all is appended to the run log — contradicting the claim that the failure is
caught by a handler that logs the error text. -/
theorem claim_C2_counterexample :
    (runMain envBadAmount).2.log = [] ∧
    (runMain envBadAmount).1 = RunResult.uncaughtError parseFailMsg := by
  constructor <;> with_unfolding_all rfl

/-- C2 (amended): an unparseable amount fails the whole aggregation (no
per-record recovery), and the resulting `ValueError` is caught by no handler:
the run terminates with exit code 1 as an uncaught exception, with no line
written to the run log — the generic handlers exist only inside the database
and email collaborators and do not enclose the aggregation step. -/
theorem claim_C2_parse_failure_uncaught :
    (∀ rows, (∃ r ∈ rows, parseAmount r.1 = none) → calculateTotals rows = none) ∧
    (∀ (env : Env) (rows : List (String × String)), sqlCredsOk env = true →
      env.dbResult = Except.ok rows → calculateTotals rows = none →
      runMain env = (RunResult.uncaughtError parseFailMsg, ⟨true, none, []⟩)) := by
  constructor
  · intro rows h
    simp [calculateTotals, runRows_none rows zeroTotals h]
  · intro env rows hc hdb hps
    simp [runMain, hc, hdb, hps]

/-- C2 (witness): both parts of the amended theorem at the concrete bad-amount
run. -/
theorem claim_C2_witness :
    calculateTotals [("abc", "cash")] = none ∧
    runMain envBadAmount = (RunResult.uncaughtError parseFailMsg, ⟨true, none, []⟩) :=
  ⟨claim_C2_parse_failure_uncaught.1 [("abc", "cash")] ⟨("abc", "cash"), by simp, by decide⟩,
    claim_C2_parse_failure_uncaught.2 envBadAmount [("abc", "cash")] (by decide) rfl
      (by decide)⟩

/-- C3: `getDateStrings` returns, as its first component, the date exactly 3
days earlier when today is a Monday (`weekday = 0`) and exactly 1 day earlier
on every other weekday, and both returned strings have the `YYYY/MM/DD`
shape. -/
theorem claim_C3_getDateStrings (t : ℕ) :
    ((weekday t = 0 → (getDateStrings t).1 = formatDate (ord2ymd (t - 3))) ∧
      (weekday t ≠ 0 → (getDateStrings t).1 = formatDate (ord2ymd (t - 1)))) ∧
    isYYYYMMDD (getDateStrings t).1 = true ∧ isYYYYMMDD (getDateStrings t).2 = true := by
  refine ⟨⟨fun h => ?_, fun h => ?_⟩, ?_, ?_⟩
  · simp [getDateStrings, h]
  · simp [getDateStrings, h]
  · by_cases h : weekday t = 0 <;> simp [getDateStrings, h, formatDate_isYYYYMMDD]
  · simp [getDateStrings, formatDate_isYYYYMMDD]

/-- C3 (witness): Monday 1970-01-05 (ordinal 719167) resolves to Friday
1970-01-02, three days earlier. -/
theorem claim_C3_witness :
    weekday 719167 = 0 ∧ (getDateStrings 719167).1 = formatDate (ord2ymd 719164) ∧
      isYYYYMMDD (getDateStrings 719167).1 = true ∧
      (getDateStrings 719167).1 = "1970/01/02" :=
  ⟨by decide, (claim_C3_getDateStrings 719167).1.1 (by decide),
    (claim_C3_getDateStrings 719167).2.1, by decide⟩

/-- C4 (counterexample): with all database values present and a successful
fetch, a run with `SMTP_PORT` absent does not fail with a configuration
error — it dies of an uncaught `TypeError` with nothing logged; and a run
with `SMTP_SERVER` absent proceeds all the way to the SMTP connection attempt
using the missing (`none`) host value. -/
theorem claim_C4_counterexample :
    runMain envPortMissing = (RunResult.uncaughtError intNoneMsg, ⟨true, none, []⟩) ∧
    (runMain envHostMissing).2.smtpHostUsed = some none := by
  constructor <;> with_unfolding_all rfl

/-- C4 (amended): only the four database values are validated, as a group,
before use.  The SMTP values are not validated at all: a run with `SMTP_PORT`
absent fails after the query with an uncaught `TypeError` (nothing logged),
and a run whose port is present proceeds to the SMTP connection attempt
passing along whatever `SMTP_SERVER` holds — including a missing value. -/
theorem claim_C4_validation (env : Env) :
    (sqlCredsOk env = false →
      runMain env = (RunResult.loggedError sqlConfigMsg, ⟨false, none, [sqlConfigMsg]⟩)) ∧
    (∀ rows t, sqlCredsOk env = true → env.dbResult = Except.ok rows →
      calculateTotals rows = some t → env.smtpPort = none →
      runMain env = (RunResult.uncaughtError intNoneMsg, ⟨true, none, []⟩)) ∧
    (∀ rows t p k, sqlCredsOk env = true → env.dbResult = Except.ok rows →
      calculateTotals rows = some t → env.smtpPort = some p → pyInt? p = some k →
      (runMain env).2.smtpHostUsed = some env.smtpServer) := by
  refine ⟨fun hc => by simp [runMain, hc], fun rows t hc hdb hct hport => by
    simp [runMain, hc, hdb, hct, hport], fun rows t p k hc hdb hct hport hk => ?_⟩
  cases hs : env.smtpResult <;> simp [runMain, hc, hdb, hct, hport, hk, hs]

/-- C4 (witness): the three parts of the amended theorem at concrete
environments. -/
theorem claim_C4_witness :
    runMain envNoDb = (RunResult.loggedError sqlConfigMsg, ⟨false, none, [sqlConfigMsg]⟩) ∧
    runMain envPortMissing = (RunResult.uncaughtError intNoneMsg, ⟨true, none, []⟩) ∧
    (runMain envHostMissing).2.smtpHostUsed = some none :=
  ⟨(claim_C4_validation envNoDb).1 (by decide),
    (claim_C4_validation envPortMissing).2.1 [] (roundTotals zeroTotals) (by decide) rfl rfl rfl,
    (claim_C4_validation envHostMissing).2.2 [] (roundTotals zeroTotals) "587" 587 (by decide)
      rfl rfl rfl (by decide)⟩

/-- C5: if any of the four database credentials is absent, the run appends the
configuration-error line to the run log and terminates with exit code 1
(`loggedError`), and no database query is attempted
(`queryAttempted = false`). -/
theorem claim_C5_missing_db_cred (env : Env)
    (h : env.sqlServer = none ∨ env.sqlDatabase = none ∨ env.sqlUid = none ∨
      env.sqlPwd = none) :
    runMain env = (RunResult.loggedError sqlConfigMsg, ⟨false, none, [sqlConfigMsg]⟩) := by
  have hc : sqlCredsOk env = false := by
    rcases h with h | h | h | h <;> simp [sqlCredsOk, h, truthy]
  simp [runMain, hc]

/-- C5 (witness): concrete run with the database password absent. -/
theorem claim_C5_witness :
    runMain envMissingPwd = (RunResult.loggedError sqlConfigMsg, ⟨false, none, [sqlConfigMsg]⟩) :=
  claim_C5_missing_db_cred envMissingPwd (Or.inr (Or.inr (Or.inr rfl)))

/-- C6: when every amount parses to a non-negative number, the aggregation
succeeds and each of the five returned totals is ≤ 0 (each matched amount is
subtracted from a zero-initialised total, and rounding preserves the sign). -/
theorem claim_C6_totals_nonpos (rows : List (String × String))
    (H : ∀ r ∈ rows, ∃ q : ℚ, parseAmount r.1 = some q ∧ 0 ≤ q) :
    (calculateTotals rows).isSome = true ∧
    ∀ t, calculateTotals rows = some t →
      t.card ≤ 0 ∧ t.sage ≤ 0 ∧ t.cash ≤ 0 ∧ t.cheque ≤ 0 ∧ t.bank ≤ 0 := by
  have hsome : ∀ r ∈ rows, (parseAmount r.1).isSome = true := fun r hr => by
    obtain ⟨q, hq, _⟩ := H r hr
    simp [hq]
  obtain ⟨t0, ht0⟩ := runRows_isSome rows zeroTotals hsome
  constructor
  · simp [calculateTotals, ht0]
  · intro t ht
    have hT : compPred (fun x => x ≤ 0) t0 := by
      refine runRows_pres (Q := fun q => 0 ≤ q) (fun x a hx ha => by linarith) rows zeroTotals
        t0 ?_ ⟨le_refl 0, le_refl 0, le_refl 0, le_refl 0, le_refl 0⟩ ht0
      intro r hr q hq
      obtain ⟨q2, hq2, hq2nn⟩ := H r hr
      rw [hq] at hq2
      injection hq2 with e
      rw [e]
      exact hq2nn
    have hc : calculateTotals rows = some (roundTotals t0) := by
      simp [calculateTotals, ht0]
    rw [hc] at ht
    injection ht with e
    subst e
    obtain ⟨h1, h2, h3, h4, h5⟩ := hT
    exact ⟨round2_nonpos h1, round2_nonpos h2, round2_nonpos h3, round2_nonpos h4,
      round2_nonpos h5⟩

/-- C6 (witness): the theorem at the single row `("3.00", "cash")`. -/
theorem claim_C6_witness :
    (calculateTotals [("3.00", "cash")]).isSome = true ∧
    (⟨0, 0, -3, 0, 0⟩ : Totals).cash ≤ 0 := by
  have H : ∀ r ∈ [("3.00", "cash")], ∃ q : ℚ, parseAmount r.1 = some q ∧ 0 ≤ q := by
    intro r hr
    simp only [List.mem_singleton] at hr
    subst hr
    exact ⟨3, by with_unfolding_all rfl, by norm_num⟩
  have h := claim_C6_totals_nonpos [("3.00", "cash")] H
  exact ⟨h.1, ((h.2 ⟨0, 0, -3, 0, 0⟩ (by with_unfolding_all rfl)).2.2.1)⟩

/-- C7: classification is case-insensitive and whitespace-tolerant: for every
amount string `a`, the three spellings of "credit card" classify to the card
category and yield identical aggregation results. -/
theorem claim_C7_case_insensitive (a : String) :
    classify (normType " Credit Card ") = some Cat.card ∧
    classify (normType "CREDIT CARD") = some Cat.card ∧
    classify (normType "credit card") = some Cat.card ∧
    calculateTotals [(a, " Credit Card ")] = calculateTotals [(a, "credit card")] ∧
    calculateTotals [(a, "CREDIT CARD")] = calculateTotals [(a, "credit card")] := by
  have key : ∀ s1 s2 : String, normType s1 = normType s2 →
      calculateTotals [(a, s1)] = calculateTotals [(a, s2)] := by
    intro s1 s2 h
    simp [calculateTotals, runRows, step, h]
  exact ⟨by decide, by decide, by decide, key _ _ (by decide), key _ _ (by decide)⟩

/-- C8: records with unrecognized payment-type labels are silently skipped
(removing such a record does not change the result), and the spec's scenario
evaluates to `(0, 0, -1000, -50, 0)` with the "Gift Card" row contributing
nothing. -/
theorem claim_C8_unrecognized_skipped :
    (∀ (xs ys : List (String × String)) (a ty : String), (parseAmount a).isSome = true →
      classify (normType ty) = none →
      calculateTotals (xs ++ (a, ty) :: ys) = calculateTotals (xs ++ ys)) ∧
    calculateTotals [("1,000.00", "Cash"), ("50.00", "Cheque"), ("25.00", "Gift Card")] =
      some ⟨0, 0, -1000, -50, 0⟩ := by
  exact ⟨fun xs ys a ty hp hc => calculateTotals_skip xs ys hp hc, by with_unfolding_all rfl⟩

/-- C8 (witness): dropping the unmatched "Gift Card" row leaves the result of
the empty aggregation. -/
theorem claim_C8_witness :
    calculateTotals [("25.00", "Gift Card")] = calculateTotals [] :=
  claim_C8_unrecognized_skipped.1 [] [] "25.00" "Gift Card" (by decide) (by decide)

/-- C9: `dumpToCSV` yields exactly two rows — the five headers in category
order, then the five totals in the same order — and the spec's concrete
scenario renders as claimed. -/
theorem claim_C9_dumpToCSV (t : Totals) :
    (dumpToCSV t).length = 2 ∧
    dumpToCSV t = [csvHeadings.map Cell.str,
      [Cell.num t.card, Cell.num t.sage, Cell.num t.cash, Cell.num t.cheque, Cell.num t.bank]] ∧
    dumpToCSV ⟨-10, 0, -5, 0, 0⟩ =
      [[Cell.str "Card", Cell.str "Sagepay", Cell.str "Cash", Cell.str "Cheque",
        Cell.str "Bank Transfer"],
        [Cell.num (-10), Cell.num 0, Cell.num (-5), Cell.num 0, Cell.num 0]] :=
  ⟨rfl, rfl, rfl⟩

/-- C10: amount parsing deletes every comma wherever it occurs before numeric
conversion — the parse result depends only on the comma-free residue — so
`"1,2,3.50"` parses to 123.50 and `"1,234.50"` to 1234.50. -/
theorem claim_C10_comma_removal :
    (∀ s t : String, removeCommas s = removeCommas t → parseAmount s = parseAmount t) ∧
    parseAmount "1,2,3.50" = some (123.50 : ℚ) ∧
    parseAmount "1,234.50" = some (1234.50 : ℚ) := by
  refine ⟨fun s t h => by simp only [parseAmount, h], by with_unfolding_all rfl,
    by with_unfolding_all rfl⟩

/-- C10 (witness): two strings with the same comma-free residue parse
identically. -/
theorem claim_C10_witness : parseAmount "1,,2" = parseAmount "12" :=
  claim_C10_comma_removal.1 "1,,2" "12" (by decide)
